import Mathlib

/-!
# Verification of the `taxbitrec` record model (src/src/lib.rs)

Shallow embedding of the `TaxBitRec` crate:

* Rust `Decimal` (crate `rust_decimal`) is an exact base-10 number whose
  `PartialEq`/`Ord` compare by mathematical value; we embed a decimal by that
  value, as `Rat` (`ℚ`).  Every concrete decimal used below (`0`, `1`, `3/2`)
  is representable in `Decimal`.
* Rust `i64` is embedded as `Int`; every concrete time used below is in the
  `i64` range, and the ordering claims quantify over values, so widening the
  domain is sound.
* Rust `String` ordering is byte-lexicographic over UTF-8; Lean's `String`
  linear order is code-point lexicographic, which coincides with UTF-8
  byte-lexicographic order.
* Rust `Ord::cmp` for these primitive types is `lt`/`eq`/`gt` by the linear
  order on the value; `cmpv` below is that comparator.
-/

/-- Rust's `Ord::cmp` on a totally ordered primitive type (`i64`, `String`,
`Decimal`): `Less` when `x < y`, `Equal` when `x = y`, else `Greater`. -/
def cmpv {α : Type} [LinearOrder α] (x y : α) : Ordering :=
  if x < y then Ordering.lt else if x = y then Ordering.eq else Ordering.gt

theorem cmpv_lt_iff {α : Type} [LinearOrder α] (x y : α) :
    cmpv x y = Ordering.lt ↔ x < y := by
  unfold cmpv
  split
  · simp [*]
  · split <;> simp [*]

theorem cmpv_eq_iff {α : Type} [LinearOrder α] (x y : α) :
    cmpv x y = Ordering.eq ↔ x = y := by
  unfold cmpv
  split
  · rename_i h
    simp only [reduceCtorEq, false_iff]
    exact ne_of_lt h
  · split <;> simp [*]

theorem cmpv_gt_iff {α : Type} [LinearOrder α] (x y : α) :
    cmpv x y = Ordering.gt ↔ y < x := by
  unfold cmpv
  split
  · rename_i h
    simp only [reduceCtorEq, false_iff, not_lt]
    exact le_of_lt h
  · split
    · rename_i h
      simp only [reduceCtorEq, false_iff, not_lt]
      exact le_of_eq h
    · rename_i h₁ h₂
      simp only [true_iff]
      rcases lt_trichotomy x y with h | h | h
      · exact absurd h h₁
      · exact absurd h h₂
      · exact h

theorem cmpv_swap {α : Type} [LinearOrder α] (x y : α) :
    (cmpv x y).swap = cmpv y x := by
  rcases lt_trichotomy x y with h | h | h
  · rw [(cmpv_lt_iff x y).mpr h, (cmpv_gt_iff y x).mpr h]
    rfl
  · rw [(cmpv_eq_iff x y).mpr h, (cmpv_eq_iff y x).mpr h.symm]
    rfl
  · rw [(cmpv_gt_iff x y).mpr h, (cmpv_lt_iff y x).mpr h]
    rfl

theorem cmpv_eq_of_eq {α : Type} [LinearOrder α] {x y : α}
    (h : cmpv x y = Ordering.eq) : x = y := (cmpv_eq_iff x y).mp h

theorem cmpv_lt_trans {α : Type} [LinearOrder α] {x y z : α}
    (h₁ : cmpv x y = Ordering.lt) (h₂ : cmpv y z = Ordering.lt) :
    cmpv x z = Ordering.lt := by
  rw [cmpv_lt_iff] at h₁ h₂ ⊢
  exact lt_trans h₁ h₂

theorem cmpv_refl {α : Type} [LinearOrder α] (x : α) :
    cmpv x x = Ordering.eq := (cmpv_eq_iff x x).mpr rfl

/-! ## The transaction-kind enumeration

Rust source, `src/src/lib.rs` lines 10–33: `TaxBitRecType` with variants in
declaration order `Income, TransferIn, GiftReceived, Buy, Trade, Sale,
Expense, TransferOut, GiftSent, Unknown`, deriving `Ord`/`PartialOrd`
(comparison by declaration index) and serde rename labels for the multi-word
variants. -/

inductive TaxBitRecType : Type where
  | Income : TaxBitRecType
  | TransferIn : TaxBitRecType
  | GiftReceived : TaxBitRecType
  | Buy : TaxBitRecType
  | Trade : TaxBitRecType
  | Sale : TaxBitRecType
  | Expense : TaxBitRecType
  | TransferOut : TaxBitRecType
  | GiftSent : TaxBitRecType
  | Unknown : TaxBitRecType
deriving DecidableEq, Repr, Fintype

namespace TaxBitRecType

/-- Declaration index of each variant (the discriminant Rust's derived `Ord`
compares), in the source's declaration order. -/
def rank : TaxBitRecType → Nat
  | .Income => 0
  | .TransferIn => 1
  | .GiftReceived => 2
  | .Buy => 3
  | .Trade => 4
  | .Sale => 5
  | .Expense => 6
  | .TransferOut => 7
  | .GiftSent => 8
  | .Unknown => 9

/-- Rust's derived `Ord for TaxBitRecType`: compare by declaration index. -/
def cmpType (a b : TaxBitRecType) : Ordering := cmpv a.rank b.rank

/-- The serde label of each variant: the `#[serde(rename = ...)]` string when
present (source lines 15, 18, 26, 29), else the variant's own name. -/
def label : TaxBitRecType → String
  | .Income => "Income"
  | .TransferIn => "Transfer In"
  | .GiftReceived => "Gift Received"
  | .Buy => "Buy"
  | .Trade => "Trade"
  | .Sale => "Sale"
  | .Expense => "Expense"
  | .TransferOut => "Transfer Out"
  | .GiftSent => "Gift Send"
  | .Unknown => "Unknown"

/-- Modelled from the spec: the serde-derived string deserializer for
`TaxBitRecType` (generated by `#[derive(Deserialize)]` at source line 10, so
its body is not under `src/`).  Per the spec, decoding matches the incoming
label exactly and case-sensitively against the fixed label table and any
unrecognized label is a decode error (`none`), never a fallback value. -/
def decode (s : String) : Option TaxBitRecType :=
  if s = "Income" then some .Income
  else if s = "Transfer In" then some .TransferIn
  else if s = "Gift Received" then some .GiftReceived
  else if s = "Buy" then some .Buy
  else if s = "Trade" then some .Trade
  else if s = "Sale" then some .Sale
  else if s = "Expense" then some .Expense
  else if s = "Transfer Out" then some .TransferOut
  else if s = "Gift Send" then some .GiftSent
  else if s = "Unknown" then some .Unknown
  else none

end TaxBitRecType

/-! ## The record

Rust source, `src/src/lib.rs` lines 40–78: struct `TaxBitRec`, fields in
declaration order. -/

structure TaxBitRec : Type where
  time : Int
  type_txs : TaxBitRecType
  sent_quantity : Option Rat
  sent_currency : String
  sending_source : String
  received_quantity : Option Rat
  received_currency : String
  receiving_destination : String
  fee_quantity : Option Rat
  fee_currency : String
  exchange_transaction_id : String
  blockchain_transaction_hash : String
deriving DecidableEq, Repr

namespace TaxBitRec

/-- `TaxBitRec::new` (source lines 102–117): the zero-value record. -/
def new : TaxBitRec where
  time := 0
  type_txs := TaxBitRecType.Unknown
  sent_quantity := none
  sent_currency := ""
  sending_source := ""
  received_quantity := none
  received_currency := ""
  receiving_destination := ""
  fee_quantity := none
  fee_currency := ""
  exchange_transaction_id := ""
  blockchain_transaction_hash := ""

/-- `Default for TaxBitRec` (source lines 135–139): delegates to `new`. -/
def defaultRec : TaxBitRec := new

/-- `TaxBitRec::get_asset` (source lines 119–132).  The Rust function
returns `&str` and panics (`panic!("SNH")`) on `Unknown`; the panic is
embedded as `none`. -/
def get_asset (r : TaxBitRec) : Option String :=
  match r.type_txs with
  | TaxBitRecType.Expense | TaxBitRecType.TransferOut
  | TaxBitRecType.GiftSent | TaxBitRecType.Sale => some r.sent_currency
  | TaxBitRecType.Buy | TaxBitRecType.TransferIn
  | TaxBitRecType.Income | TaxBitRecType.GiftReceived
  | TaxBitRecType.Trade => some r.received_currency
  | TaxBitRecType.Unknown => none

/-- `PartialEq for TaxBitRec::eq` (source lines 143–159): conjunction of
field equalities in the source's order.  Rust `Option<Decimal>` equality is
both-`None` or both-`Some` with equal values, which is `Option Rat` equality
here. -/
def eqRec (a b : TaxBitRec) : Prop :=
  a.time = b.time
    ∧ a.exchange_transaction_id = b.exchange_transaction_id
    ∧ a.blockchain_transaction_hash = b.blockchain_transaction_hash
    ∧ a.type_txs = b.type_txs
    ∧ a.received_currency = b.received_currency
    ∧ a.sent_currency = b.sent_currency
    ∧ a.fee_currency = b.fee_currency
    ∧ a.receiving_destination = b.receiving_destination
    ∧ a.sending_source = b.sending_source
    ∧ a.received_quantity = b.received_quantity
    ∧ a.sent_quantity = b.sent_quantity
    ∧ a.fee_quantity = b.fee_quantity

instance eqRecDecidable (a b : TaxBitRec) : Decidable (eqRec a b) := by
  unfold eqRec
  infer_instance

end TaxBitRec

/-! ## Per-field comparators used by `partial_cmp`

Each Rust field comparison in `partial_cmp` (source lines 161–220) is a call
to `PartialOrd::partial_cmp` of the field's type.  For every field type in
this struct that call is total (always `Some`):

* `i64::partial_cmp` and `String::partial_cmp` are `Some(cmp)`;
* the derived `PartialOrd for TaxBitRecType` (with derived `Ord`) is
  `Some(cmp)` by discriminant;
* `Option<Decimal>::partial_cmp` is `None < Some`, with two `Some`s compared
  by `Decimal::partial_cmp`, which is total (comparison by value). -/

/-- Rust `Option<Decimal>::cmp`-behaviour: `None` before `Some`, values by
mathematical value. -/
def cmpOptRat : Option Rat → Option Rat → Ordering
  | none, none => Ordering.eq
  | none, some _ => Ordering.lt
  | some _, none => Ordering.gt
  | some x, some y => cmpv x y

/-- `i64::partial_cmp`: total, `Some` of the value comparison. -/
def pcInt (x y : Int) : Option Ordering := some (cmpv x y)

/-- `String::partial_cmp`: total, `Some` of byte-lexicographic comparison. -/
def pcStr (x y : String) : Option Ordering := some (cmpv x y)

/-- Derived `PartialOrd for TaxBitRecType`: total, `Some` of the derived
`Ord` comparison. -/
def pcType (x y : TaxBitRecType) : Option Ordering :=
  some (TaxBitRecType.cmpType x y)

/-- `Option<Decimal>::partial_cmp`: total on every shape of its inputs. -/
def pcOptRat (x y : Option Rat) : Option Ordering := some (cmpOptRat x y)

/-- The early-return pattern of `partial_cmp` (source lines 164–167 and the
ten analogous blocks): on `Some(Equal)` fall through to the next field,
otherwise return the result. -/
def thenPC (o : Option Ordering) (g : Unit → Option Ordering) : Option Ordering :=
  match o with
  | some Ordering.eq => g ()
  | ord => ord

namespace TaxBitRec

/-- `PartialOrd for TaxBitRec::partial_cmp` (source lines 161–220): the
twelve-field early-return cascade, fields in the source's order. -/
def pcmp (a b : TaxBitRec) : Option Ordering :=
  thenPC (pcInt a.time b.time) fun _ =>
  thenPC (pcStr a.exchange_transaction_id b.exchange_transaction_id) fun _ =>
  thenPC (pcStr a.blockchain_transaction_hash b.blockchain_transaction_hash) fun _ =>
  thenPC (pcType a.type_txs b.type_txs) fun _ =>
  thenPC (pcStr a.received_currency b.received_currency) fun _ =>
  thenPC (pcStr a.sent_currency b.sent_currency) fun _ =>
  thenPC (pcStr a.fee_currency b.fee_currency) fun _ =>
  thenPC (pcStr a.receiving_destination b.receiving_destination) fun _ =>
  thenPC (pcStr a.sending_source b.sending_source) fun _ =>
  thenPC (pcOptRat a.received_quantity b.received_quantity) fun _ =>
  thenPC (pcOptRat a.sent_quantity b.sent_quantity) fun _ =>
  pcOptRat a.fee_quantity b.fee_quantity

/-- `Ord for TaxBitRec::cmp` (source lines 222–229): unwrap `partial_cmp`;
the `None` branch is `panic!("SNH")`, embedded as `none`. -/
def cmpRec (a b : TaxBitRec) : Option Ordering :=
  match pcmp a b with
  | some ord => some ord
  | none => none

/-- Rust `<` from `PartialOrd`: `partial_cmp` returned `Some(Less)`. -/
def ltRec (a b : TaxBitRec) : Prop := pcmp a b = some Ordering.lt

end TaxBitRec

/-! ## The total core of the comparison

Every per-field comparator is total, so `pcmp` always succeeds; its value is
the `Ordering.then`-cascade `recCompare` below. -/

/-- One lexicographic step: compare through the projection `f`, on equality
fall through to `rest`. -/
def cmpLex {α β : Type} (c : β → β → Ordering) (f : α → β)
    (rest : α → α → Ordering) (x y : α) : Ordering :=
  (c (f x) (f y)).then (rest x y)

/-- The value `partial_cmp` always computes: the twelve-field lexicographic
comparison in the source's field order. -/
def recCompare : TaxBitRec → TaxBitRec → Ordering :=
  cmpLex cmpv (fun r => r.time)
    (cmpLex cmpv (fun r => r.exchange_transaction_id)
      (cmpLex cmpv (fun r => r.blockchain_transaction_hash)
        (cmpLex TaxBitRecType.cmpType (fun r => r.type_txs)
          (cmpLex cmpv (fun r => r.received_currency)
            (cmpLex cmpv (fun r => r.sent_currency)
              (cmpLex cmpv (fun r => r.fee_currency)
                (cmpLex cmpv (fun r => r.receiving_destination)
                  (cmpLex cmpv (fun r => r.sending_source)
                    (cmpLex cmpOptRat (fun r => r.received_quantity)
                      (cmpLex cmpOptRat (fun r => r.sent_quantity)
                        (fun a b => cmpOptRat a.fee_quantity b.fee_quantity)))))))))))

theorem then_eq_eq {o₁ o₂ : Ordering} :
    o₁.then o₂ = Ordering.eq ↔ o₁ = Ordering.eq ∧ o₂ = Ordering.eq := by
  cases o₁ <;> simp [Ordering.then]

theorem then_eq_lt {o₁ o₂ : Ordering} :
    o₁.then o₂ = Ordering.lt ↔
      o₁ = Ordering.lt ∨ (o₁ = Ordering.eq ∧ o₂ = Ordering.lt) := by
  cases o₁ <;> simp [Ordering.then]

theorem then_swap (o₁ o₂ : Ordering) :
    (o₁.then o₂).swap = o₁.swap.then o₂.swap := by
  cases o₁ <;> rfl

theorem thenPC_some_then {g : Unit → Option Ordering} {r : Ordering}
    (o : Ordering) (hg : g () = some r) :
    thenPC (some o) g = some (o.then r) := by
  cases o <;> simp [thenPC, Ordering.then, hg]

/-! Laws of the per-field comparators. -/

theorem cmpType_eq_iff :
    ∀ a b : TaxBitRecType,
      TaxBitRecType.cmpType a b = Ordering.eq ↔ a = b := by decide

theorem cmpType_swap :
    ∀ a b : TaxBitRecType,
      (TaxBitRecType.cmpType a b).swap = TaxBitRecType.cmpType b a := by decide

theorem cmpType_lt_trans :
    ∀ a b c : TaxBitRecType,
      TaxBitRecType.cmpType a b = Ordering.lt →
      TaxBitRecType.cmpType b c = Ordering.lt →
      TaxBitRecType.cmpType a c = Ordering.lt := by decide

theorem cmpOptRat_eq_iff (x y : Option Rat) :
    cmpOptRat x y = Ordering.eq ↔ x = y := by
  cases x <;> cases y <;> simp [cmpOptRat, cmpv_eq_iff]

theorem cmpOptRat_swap (x y : Option Rat) :
    (cmpOptRat x y).swap = cmpOptRat y x := by
  cases x <;> cases y
  · rfl
  · rfl
  · rfl
  · exact cmpv_swap _ _

theorem cmpOptRat_lt_trans {x y z : Option Rat}
    (h₁ : cmpOptRat x y = Ordering.lt) (h₂ : cmpOptRat y z = Ordering.lt) :
    cmpOptRat x z = Ordering.lt := by
  cases x <;> cases y <;> cases z <;>
    simp_all [cmpOptRat, cmpv_lt_iff]
  exact lt_trans h₁ h₂

/-! Laws of the composed comparator. -/

theorem cmpLex_lt_trans {α β : Type} {c : β → β → Ordering} {f : α → β}
    {rest : α → α → Ordering}
    (hceq : ∀ u v, c u v = Ordering.eq → u = v)
    (hclt : ∀ u v w, c u v = Ordering.lt → c v w = Ordering.lt →
      c u w = Ordering.lt)
    (hrest : ∀ x y z, rest x y = Ordering.lt → rest y z = Ordering.lt →
      rest x z = Ordering.lt) :
    ∀ x y z, cmpLex c f rest x y = Ordering.lt →
      cmpLex c f rest y z = Ordering.lt →
      cmpLex c f rest x z = Ordering.lt := by
  intro x y z h₁ h₂
  rw [cmpLex, then_eq_lt] at h₁ h₂ ⊢
  rcases h₁ with h₁ | ⟨h₁e, h₁r⟩ <;> rcases h₂ with h₂ | ⟨h₂e, h₂r⟩
  · exact Or.inl (hclt _ _ _ h₁ h₂)
  · refine Or.inl ?_
    rw [← hceq _ _ h₂e]
    exact h₁
  · refine Or.inl ?_
    rw [hceq _ _ h₁e]
    exact h₂
  · refine Or.inr ⟨?_, hrest _ _ _ h₁r h₂r⟩
    rw [← hceq _ _ h₂e]
    exact h₁e

theorem recCompare_lt_trans :
    ∀ x y z : TaxBitRec, recCompare x y = Ordering.lt →
      recCompare y z = Ordering.lt → recCompare x z = Ordering.lt := by
  unfold recCompare
  apply cmpLex_lt_trans (fun u v h => cmpv_eq_of_eq h)
    (fun u v w h1 h2 => cmpv_lt_trans h1 h2)
  apply cmpLex_lt_trans (fun u v h => cmpv_eq_of_eq h)
    (fun u v w h1 h2 => cmpv_lt_trans h1 h2)
  apply cmpLex_lt_trans (fun u v h => cmpv_eq_of_eq h)
    (fun u v w h1 h2 => cmpv_lt_trans h1 h2)
  apply cmpLex_lt_trans (fun u v h => (cmpType_eq_iff u v).mp h)
    (fun u v w h1 h2 => cmpType_lt_trans u v w h1 h2)
  apply cmpLex_lt_trans (fun u v h => cmpv_eq_of_eq h)
    (fun u v w h1 h2 => cmpv_lt_trans h1 h2)
  apply cmpLex_lt_trans (fun u v h => cmpv_eq_of_eq h)
    (fun u v w h1 h2 => cmpv_lt_trans h1 h2)
  apply cmpLex_lt_trans (fun u v h => cmpv_eq_of_eq h)
    (fun u v w h1 h2 => cmpv_lt_trans h1 h2)
  apply cmpLex_lt_trans (fun u v h => cmpv_eq_of_eq h)
    (fun u v w h1 h2 => cmpv_lt_trans h1 h2)
  apply cmpLex_lt_trans (fun u v h => cmpv_eq_of_eq h)
    (fun u v w h1 h2 => cmpv_lt_trans h1 h2)
  apply cmpLex_lt_trans (fun u v h => (cmpOptRat_eq_iff u v).mp h)
    (fun u v w h1 h2 => cmpOptRat_lt_trans h1 h2)
  apply cmpLex_lt_trans (fun u v h => (cmpOptRat_eq_iff u v).mp h)
    (fun u v w h1 h2 => cmpOptRat_lt_trans h1 h2)
  exact fun x y z h1 h2 => cmpOptRat_lt_trans h1 h2

theorem recCompare_swap (a b : TaxBitRec) :
    (recCompare a b).swap = recCompare b a := by
  simp only [recCompare, cmpLex, then_swap, cmpv_swap, cmpType_swap,
    cmpOptRat_swap]

theorem recCompare_eq_iff (a b : TaxBitRec) :
    recCompare a b = Ordering.eq ↔ a = b := by
  obtain ⟨a1, a2, a3, a4, a5, a6, a7, a8, a9, a10, a11, a12⟩ := a
  obtain ⟨b1, b2, b3, b4, b5, b6, b7, b8, b9, b10, b11, b12⟩ := b
  simp only [recCompare, cmpLex, then_eq_eq, cmpv_eq_iff, cmpType_eq_iff,
    cmpOptRat_eq_iff, TaxBitRec.mk.injEq]
  tauto

/-- `partial_cmp` always returns `Some`, of the lexicographic value. -/
theorem pcmp_eq_some (a b : TaxBitRec) :
    TaxBitRec.pcmp a b = some (recCompare a b) := by
  unfold TaxBitRec.pcmp recCompare cmpLex pcInt pcStr pcType pcOptRat
  exact thenPC_some_then _ (thenPC_some_then _ (thenPC_some_then _
    (thenPC_some_then _ (thenPC_some_then _ (thenPC_some_then _
      (thenPC_some_then _ (thenPC_some_then _ (thenPC_some_then _
        (thenPC_some_then _ (thenPC_some_then _ rfl))))))))))

theorem cmpRec_eq_some (a b : TaxBitRec) :
    TaxBitRec.cmpRec a b = some (recCompare a b) := by
  unfold TaxBitRec.cmpRec
  rw [pcmp_eq_some]

theorem ltRec_iff (a b : TaxBitRec) :
    TaxBitRec.ltRec a b ↔ recCompare a b = Ordering.lt := by
  unfold TaxBitRec.ltRec
  rw [pcmp_eq_some]
  exact ⟨fun h => Option.some.inj h, fun h => by rw [h]⟩

theorem recCompare_refl (a : TaxBitRec) : recCompare a a = Ordering.eq :=
  (recCompare_eq_iff a a).mpr rfl

theorem cmpv_refl' {α : Type} [LinearOrder α] (x y : α) (h : x = y) :
    cmpv x y = Ordering.eq := (cmpv_eq_iff x y).mpr h

theorem cmpType_refl :
    ∀ a : TaxBitRecType, TaxBitRecType.cmpType a a = Ordering.eq := by decide

theorem eq_then (o : Ordering) : Ordering.eq.then o = o := rfl

theorem then_unit (o : Ordering) : o.then Ordering.eq = o := by
  cases o <;> rfl

/-! ## Spec-side definitions

These two definitions follow the SPEC's words (§4.2), to be compared with
the embedding of the source; they are deliberately distinct from the
source-derived `pcmp`/`eqRec`. -/

/-- The spec's fixed field sequence, as the list of per-field comparison
results: time, exchange_transaction_id, blockchain_transaction_hash, kind,
received_currency, sent_currency, fee_currency, receiving_destination,
sending_source, received_quantity, sent_quantity, fee_quantity. -/
def specFieldOrderings (r1 r2 : TaxBitRec) : List Ordering :=
  [cmpv r1.time r2.time,
   cmpv r1.exchange_transaction_id r2.exchange_transaction_id,
   cmpv r1.blockchain_transaction_hash r2.blockchain_transaction_hash,
   TaxBitRecType.cmpType r1.type_txs r2.type_txs,
   cmpv r1.received_currency r2.received_currency,
   cmpv r1.sent_currency r2.sent_currency,
   cmpv r1.fee_currency r2.fee_currency,
   cmpv r1.receiving_destination r2.receiving_destination,
   cmpv r1.sending_source r2.sending_source,
   cmpOptRat r1.received_quantity r2.received_quantity,
   cmpOptRat r1.sent_quantity r2.sent_quantity,
   cmpOptRat r1.fee_quantity r2.fee_quantity]

/-- The spec's rule: the first field where the records differ determines the
result; if all fields are equal, the records compare equal. -/
def firstNonEq : List Ordering → Ordering
  | [] => Ordering.eq
  | Ordering.eq :: rest => firstNonEq rest
  | o :: _ => o

theorem firstNonEq_cons (o : Ordering) (l : List Ordering) :
    firstNonEq (o :: l) = o.then (firstNonEq l) := by
  cases o <;> rfl

theorem firstNonEq_spec_eq_recCompare (r1 r2 : TaxBitRec) :
    firstNonEq (specFieldOrderings r1 r2) = recCompare r1 r2 := by
  simp only [specFieldOrderings, firstNonEq_cons, firstNonEq, then_unit,
    recCompare, cmpLex]

/-- The spec's wording for an optional decimal field's equality: both absent,
or both present with equal values. -/
def optEqSpec (x y : Option Rat) : Prop :=
  (x = none ∧ y = none) ∨ (∃ v w : Rat, x = some v ∧ y = some w ∧ v = w)

theorem optEqSpec_iff (x y : Option Rat) : optEqSpec x y ↔ x = y := by
  cases x <;> cases y <;> simp [optEqSpec]

/-- The spec's wording of structural equality (§4.2): every one of the
twelve fields pairwise equal, in the data-model table's order, with the
both-absent-or-both-equal-value clause for each optional decimal. -/
def eqSpec (a b : TaxBitRec) : Prop :=
  a.time = b.time
    ∧ a.type_txs = b.type_txs
    ∧ optEqSpec a.sent_quantity b.sent_quantity
    ∧ a.sent_currency = b.sent_currency
    ∧ a.sending_source = b.sending_source
    ∧ optEqSpec a.received_quantity b.received_quantity
    ∧ a.received_currency = b.received_currency
    ∧ a.receiving_destination = b.receiving_destination
    ∧ optEqSpec a.fee_quantity b.fee_quantity
    ∧ a.fee_currency = b.fee_currency
    ∧ a.exchange_transaction_id = b.exchange_transaction_id
    ∧ a.blockchain_transaction_hash = b.blockchain_transaction_hash

theorem eqRec_iff_eq (a b : TaxBitRec) : TaxBitRec.eqRec a b ↔ a = b := by
  obtain ⟨a1, a2, a3, a4, a5, a6, a7, a8, a9, a10, a11, a12⟩ := a
  obtain ⟨b1, b2, b3, b4, b5, b6, b7, b8, b9, b10, b11, b12⟩ := b
  simp only [TaxBitRec.eqRec, TaxBitRec.mk.injEq]
  tauto

theorem eqSpec_iff_eq (a b : TaxBitRec) : eqSpec a b ↔ a = b := by
  obtain ⟨a1, a2, a3, a4, a5, a6, a7, a8, a9, a10, a11, a12⟩ := a
  obtain ⟨b1, b2, b3, b4, b5, b6, b7, b8, b9, b10, b11, b12⟩ := b
  simp only [eqSpec, optEqSpec_iff, TaxBitRec.mk.injEq]

theorem cmpOptRat_refl (x : Option Rat) : cmpOptRat x x = Ordering.eq :=
  (cmpOptRat_eq_iff x x).mpr rfl

theorem lt_then (o : Ordering) : Ordering.lt.then o = Ordering.lt := rfl

theorem cmpOptRat_none_some (d : Rat) :
    cmpOptRat none (some d) = Ordering.lt := rfl

/-! ## Claims -/

/-- Claim C1: for every pair of records the comparison is lexicographic over
the fixed field sequence time, exchange_transaction_id,
blockchain_transaction_hash, kind, received_currency, sent_currency,
fee_currency, receiving_destination, sending_source, received_quantity,
sent_quantity, fee_quantity: `partial_cmp` returns exactly the first
non-equal per-field result of that sequence, and the result is `Equal` iff
all twelve fields are equal. -/
theorem claim_C1_lex_field_sequence (r1 r2 : TaxBitRec) :
    TaxBitRec.pcmp r1 r2 = some (firstNonEq (specFieldOrderings r1 r2))
      ∧ (firstNonEq (specFieldOrderings r1 r2) = Ordering.eq ↔ r1 = r2) := by
  constructor
  · rw [pcmp_eq_some, firstNonEq_spec_eq_recCompare]
  · rw [firstNonEq_spec_eq_recCompare]
    exact recCompare_eq_iff r1 r2

/-- Claim C1 witness: the lexicographic characterisation evaluated at the
zero record compared with itself. -/
theorem claim_C1_lex_field_sequence_witness :
    TaxBitRec.pcmp TaxBitRec.new TaxBitRec.new
        = some (firstNonEq (specFieldOrderings TaxBitRec.new TaxBitRec.new))
      ∧ firstNonEq (specFieldOrderings TaxBitRec.new TaxBitRec.new)
        = Ordering.eq :=
  ⟨(claim_C1_lex_field_sequence TaxBitRec.new TaxBitRec.new).1,
   (claim_C1_lex_field_sequence TaxBitRec.new TaxBitRec.new).2.mpr rfl⟩

/-- Claim C2: `get_asset` returns the sent currency for Expense, TransferOut,
GiftSent and Sale; the received currency for Buy, TransferIn, Income,
GiftReceived and Trade; and fails (panic, embedded as `none`) for Unknown. -/
theorem claim_C2_get_asset (r : TaxBitRec) :
    ((r.type_txs = TaxBitRecType.Expense ∨ r.type_txs = TaxBitRecType.TransferOut
        ∨ r.type_txs = TaxBitRecType.GiftSent ∨ r.type_txs = TaxBitRecType.Sale) →
      r.get_asset = some r.sent_currency)
    ∧ ((r.type_txs = TaxBitRecType.Buy ∨ r.type_txs = TaxBitRecType.TransferIn
        ∨ r.type_txs = TaxBitRecType.Income ∨ r.type_txs = TaxBitRecType.GiftReceived
        ∨ r.type_txs = TaxBitRecType.Trade) →
      r.get_asset = some r.received_currency)
    ∧ (r.type_txs = TaxBitRecType.Unknown → r.get_asset = none) := by
  refine ⟨fun h => ?_, fun h => ?_, fun h => ?_⟩
  · rcases h with h | h | h | h <;> simp [TaxBitRec.get_asset, h]
  · rcases h with h | h | h | h | h <;> simp [TaxBitRec.get_asset, h]
  · simp [TaxBitRec.get_asset, h]

/-- Claim C2 witness: a Sale record resolves to its sent currency. -/
theorem claim_C2_get_asset_witness :
    ({ TaxBitRec.new with
      type_txs := TaxBitRecType.Sale,
      sent_currency := "BTC" } : TaxBitRec).get_asset = some "BTC" :=
  (claim_C2_get_asset _).1 (Or.inr (Or.inr (Or.inr rfl)))

/-- Claim C3: the comparison is a strict total order: for all records
exactly one of `r1 < r2`, `r1 = r2`, `r2 < r1` holds, and `<` is
transitive. -/
theorem claim_C3_strict_total_order (r1 r2 r3 : TaxBitRec) :
    ((TaxBitRec.ltRec r1 r2 ∧ r1 ≠ r2 ∧ ¬TaxBitRec.ltRec r2 r1)
      ∨ (¬TaxBitRec.ltRec r1 r2 ∧ r1 = r2 ∧ ¬TaxBitRec.ltRec r2 r1)
      ∨ (¬TaxBitRec.ltRec r1 r2 ∧ r1 ≠ r2 ∧ TaxBitRec.ltRec r2 r1))
    ∧ (TaxBitRec.ltRec r1 r2 → TaxBitRec.ltRec r2 r3 →
        TaxBitRec.ltRec r1 r3) := by
  constructor
  · cases h : recCompare r1 r2 with
    | lt =>
      refine Or.inl ⟨(ltRec_iff r1 r2).mpr h, ?_, ?_⟩
      · intro e
        rw [e, recCompare_refl] at h
        exact Ordering.noConfusion h
      · intro hlt
        have h2 := (ltRec_iff r2 r1).mp hlt
        rw [← recCompare_swap r1 r2, h] at h2
        exact Ordering.noConfusion h2
    | eq =>
      refine Or.inr (Or.inl ⟨?_, (recCompare_eq_iff r1 r2).mp h, ?_⟩)
      · intro hlt
        have h2 := (ltRec_iff r1 r2).mp hlt
        rw [h] at h2
        exact Ordering.noConfusion h2
      · intro hlt
        have h2 := (ltRec_iff r2 r1).mp hlt
        rw [← recCompare_swap r1 r2, h] at h2
        exact Ordering.noConfusion h2
    | gt =>
      refine Or.inr (Or.inr ⟨?_, ?_, ?_⟩)
      · intro hlt
        have h2 := (ltRec_iff r1 r2).mp hlt
        rw [h] at h2
        exact Ordering.noConfusion h2
      · intro e
        rw [e, recCompare_refl] at h
        exact Ordering.noConfusion h
      · refine (ltRec_iff r2 r1).mpr ?_
        rw [← recCompare_swap r1 r2, h]
        rfl
  · intro h1 h2
    exact (ltRec_iff r1 r3).mpr
      (recCompare_lt_trans r1 r2 r3 ((ltRec_iff r1 r2).mp h1)
        ((ltRec_iff r2 r3).mp h2))

/-- Claim C3 witness: a concrete three-record chain ordered by time, with
transitivity discharged through the theorem. -/
theorem claim_C3_strict_total_order_witness :
    TaxBitRec.ltRec TaxBitRec.new { TaxBitRec.new with time := 1 }
    ∧ TaxBitRec.ltRec { TaxBitRec.new with time := 1 }
        { TaxBitRec.new with time := 2 }
    ∧ TaxBitRec.ltRec TaxBitRec.new { TaxBitRec.new with time := 2 } := by
  have h1 : TaxBitRec.ltRec TaxBitRec.new { TaxBitRec.new with time := 1 } := by
    rw [TaxBitRec.ltRec, pcmp_eq_some]
    simp [recCompare, cmpLex, TaxBitRec.new, cmpv_refl, cmpType_refl,
      cmpOptRat, Ordering.then, cmpv, cmpv_lt_iff]
  have h2 : TaxBitRec.ltRec { TaxBitRec.new with time := 1 }
      { TaxBitRec.new with time := 2 } := by
    rw [TaxBitRec.ltRec, pcmp_eq_some]
    simp [recCompare, cmpLex, TaxBitRec.new, cmpv_refl, cmpType_refl,
      cmpOptRat, Ordering.then, cmpv, cmpv_lt_iff]
  exact ⟨h1, h2,
    (claim_C3_strict_total_order TaxBitRec.new { TaxBitRec.new with time := 1 }
      { TaxBitRec.new with time := 2 }).2 h1 h2⟩

/-- Claim C4 counterexample: two records identical except that `fee_quantity`
is absent in one and present in the other — all earlier fields equal — and
the comparison does NOT abort: `partial_cmp` returns `Some(Less)` and
`Ord::cmp` returns `Less` without reaching its panic (`none`) branch.  This
refutes the claim that mismatched optional-decimal presence raises a fatal
LogicError. -/
theorem claim_C4_counterexample :
    TaxBitRec.pcmp TaxBitRec.new { TaxBitRec.new with fee_quantity := some 1 }
        = some Ordering.lt
    ∧ TaxBitRec.cmpRec TaxBitRec.new
        { TaxBitRec.new with fee_quantity := some 1 }
        = some Ordering.lt := by
  have h : TaxBitRec.pcmp TaxBitRec.new
      { TaxBitRec.new with fee_quantity := some 1 } = some Ordering.lt := by
    rw [pcmp_eq_some]
    simp [recCompare, cmpLex, TaxBitRec.new, cmpv_refl, cmpType_refl,
      cmpOptRat, Ordering.then]
  refine ⟨h, ?_⟩
  rw [cmpRec_eq_some, ← pcmp_eq_some]
  exact h

/-- Claim C4 amended: when the total-order comparison reaches an
optional-decimal field that is absent in one record and present in the other
(all fields earlier in the comparison sequence equal), it does not abort:
`cmp` returns a result, ordering the record with the absent value strictly
first; the LogicError branch of `cmp` is never taken. -/
theorem claim_C4_amended_no_abort (r1 r2 : TaxBitRec) (d : Rat)
    (htime : r1.time = r2.time)
    (hex : r1.exchange_transaction_id = r2.exchange_transaction_id)
    (hbh : r1.blockchain_transaction_hash = r2.blockchain_transaction_hash)
    (hty : r1.type_txs = r2.type_txs)
    (hrc : r1.received_currency = r2.received_currency)
    (hsc : r1.sent_currency = r2.sent_currency)
    (hfc : r1.fee_currency = r2.fee_currency)
    (hrd : r1.receiving_destination = r2.receiving_destination)
    (hss : r1.sending_source = r2.sending_source) :
    (r1.received_quantity = none → r2.received_quantity = some d →
      TaxBitRec.cmpRec r1 r2 = some Ordering.lt)
    ∧ (r1.received_quantity = r2.received_quantity →
        r1.sent_quantity = none → r2.sent_quantity = some d →
        TaxBitRec.cmpRec r1 r2 = some Ordering.lt)
    ∧ (r1.received_quantity = r2.received_quantity →
        r1.sent_quantity = r2.sent_quantity →
        r1.fee_quantity = none → r2.fee_quantity = some d →
        TaxBitRec.cmpRec r1 r2 = some Ordering.lt) := by
  refine ⟨fun hr1 hr2 => ?_, fun hre hs1 hs2 => ?_, fun hre hse hf1 hf2 => ?_⟩
  · rw [cmpRec_eq_some]
    simp only [recCompare, cmpLex, htime, hex, hbh, hty, hrc, hsc, hfc, hrd,
      hss, cmpv_refl, cmpType_refl, eq_then, hr1, hr2, cmpOptRat_none_some,
      lt_then]
  · rw [cmpRec_eq_some]
    simp only [recCompare, cmpLex, htime, hex, hbh, hty, hrc, hsc, hfc, hrd,
      hss, cmpv_refl, cmpType_refl, eq_then, hre, cmpOptRat_refl, hs1, hs2,
      cmpOptRat_none_some, lt_then]
  · rw [cmpRec_eq_some]
    simp only [recCompare, cmpLex, htime, hex, hbh, hty, hrc, hsc, hfc, hrd,
      hss, cmpv_refl, cmpType_refl, eq_then, hre, hse, cmpOptRat_refl, hf1,
      hf2, cmpOptRat_none_some, lt_then]

/-- Claim C4 witness: the amended statement evaluated at the concrete
mismatched-presence pair. -/
theorem claim_C4_amended_no_abort_witness :
    TaxBitRec.cmpRec TaxBitRec.new { TaxBitRec.new with fee_quantity := some 1 }
      = some Ordering.lt :=
  (claim_C4_amended_no_abort TaxBitRec.new
    { TaxBitRec.new with fee_quantity := some 1 } 1
    rfl rfl rfl rfl rfl rfl rfl rfl rfl).2.2 rfl rfl rfl rfl

/-- Claim C5: at each optional-decimal field the comparison orders an absent
value strictly before any present value, and two present values by the
mathematical value of their decimals; consequently, of two records identical
except for a smaller present fee, the smaller-fee record is strictly less. -/
theorem claim_C5_optional_decimal_order (d d₁ d₂ : Rat) :
    cmpOptRat none (some d) = Ordering.lt
    ∧ cmpOptRat (some d) none = Ordering.gt
    ∧ cmpOptRat none none = Ordering.eq
    ∧ (cmpOptRat (some d₁) (some d₂) = Ordering.lt ↔ d₁ < d₂)
    ∧ (cmpOptRat (some d₁) (some d₂) = Ordering.eq ↔ d₁ = d₂)
    ∧ (d₁ < d₂ →
        TaxBitRec.pcmp { TaxBitRec.new with fee_quantity := some d₁ }
          { TaxBitRec.new with fee_quantity := some d₂ }
          = some Ordering.lt) := by
  refine ⟨rfl, rfl, rfl, cmpv_lt_iff d₁ d₂, cmpv_eq_iff d₁ d₂, fun h => ?_⟩
  rw [pcmp_eq_some]
  simp [recCompare, cmpLex, TaxBitRec.new, cmpv_refl, cmpType_refl,
    cmpOptRat, Ordering.then, cmpv_lt_iff, h]

/-- Claim C5 witness: the fee-quantity scenario `0 < 1` from the spec. -/
theorem claim_C5_optional_decimal_order_witness :
    TaxBitRec.pcmp { TaxBitRec.new with fee_quantity := some 0 }
      { TaxBitRec.new with fee_quantity := some 1 } = some Ordering.lt :=
  (claim_C5_optional_decimal_order 1 0 1).2.2.2.2.2 (by norm_num)

/-- Claim C6: structural equality holds iff all twelve fields are pairwise
equal (with the both-absent-or-both-equal-value reading for each optional
decimal, per `eqSpec`), it coincides with equality of the embedded records,
and it is reflexive, symmetric and transitive. -/
theorem claim_C6_structural_equality (a b c : TaxBitRec) :
    (TaxBitRec.eqRec a b ↔ eqSpec a b)
    ∧ (TaxBitRec.eqRec a b ↔ a = b)
    ∧ TaxBitRec.eqRec a a
    ∧ (TaxBitRec.eqRec a b → TaxBitRec.eqRec b a)
    ∧ (TaxBitRec.eqRec a b → TaxBitRec.eqRec b c → TaxBitRec.eqRec a c) :=
  ⟨(eqRec_iff_eq a b).trans (eqSpec_iff_eq a b).symm,
   eqRec_iff_eq a b,
   (eqRec_iff_eq a a).mpr rfl,
   fun h => (eqRec_iff_eq b a).mpr ((eqRec_iff_eq a b).mp h).symm,
   fun h₁ h₂ => (eqRec_iff_eq a c).mpr
     (((eqRec_iff_eq a b).mp h₁).trans ((eqRec_iff_eq b c).mp h₂))⟩

/-- Claim C6 witness: transitivity of `eq` discharged at the zero record,
with both premises supplied by the theorem's own reflexivity component. -/
theorem claim_C6_structural_equality_witness :
    TaxBitRec.eqRec TaxBitRec.new TaxBitRec.new :=
  (claim_C6_structural_equality TaxBitRec.new TaxBitRec.new TaxBitRec.new).2.2.2.2
    (claim_C6_structural_equality TaxBitRec.new TaxBitRec.new TaxBitRec.new).2.2.1
    (claim_C6_structural_equality TaxBitRec.new TaxBitRec.new TaxBitRec.new).2.2.1

/-- Claim C7: `new()` and `default()` produce the same zero-value record:
time 0, kind Unknown, all three optional quantities absent, all seven text
fields empty; `default()` is deterministic and `default().kind = Unknown`. -/
theorem claim_C7_default_zero_record :
    TaxBitRec.defaultRec = TaxBitRec.new
    ∧ TaxBitRec.defaultRec = TaxBitRec.defaultRec
    ∧ TaxBitRec.new.time = 0
    ∧ TaxBitRec.new.type_txs = TaxBitRecType.Unknown
    ∧ TaxBitRec.new.sent_quantity = none
    ∧ TaxBitRec.new.received_quantity = none
    ∧ TaxBitRec.new.fee_quantity = none
    ∧ TaxBitRec.new.sent_currency = ""
    ∧ TaxBitRec.new.sending_source = ""
    ∧ TaxBitRec.new.received_currency = ""
    ∧ TaxBitRec.new.receiving_destination = ""
    ∧ TaxBitRec.new.fee_currency = ""
    ∧ TaxBitRec.new.exchange_transaction_id = ""
    ∧ TaxBitRec.new.blockchain_transaction_hash = ""
    ∧ TaxBitRec.defaultRec.type_txs = TaxBitRecType.Unknown :=
  ⟨rfl, rfl, rfl, rfl, rfl, rfl, rfl, rfl, rfl, rfl, rfl, rfl, rfl, rfl, rfl⟩

set_option maxHeartbeats 1600000 in
/-- Claim C8: decoding the transaction-type field maps exactly the ten fixed
labels — the multi-word labels "Transfer In", "Gift Received",
"Transfer Out", "Gift Send" and the single-word variant names — by exact,
case-sensitive match; every label decodes to its variant, a successful
decode only happens on a variant's exact label, a string that is no
variant's label is a decode error (`none`, never a fallback), and the
spec's "Unknown Label" example as well as a case-variant label fail. -/
theorem claim_C8_decode_labels (s : String) (t : TaxBitRecType) :
    TaxBitRecType.decode (TaxBitRecType.label t) = some t
    ∧ (TaxBitRecType.decode s = some t → s = TaxBitRecType.label t)
    ∧ ((∀ u : TaxBitRecType, s ≠ TaxBitRecType.label u) →
        TaxBitRecType.decode s = none)
    ∧ TaxBitRecType.decode "Unknown Label" = none
    ∧ TaxBitRecType.decode "buy" = none
    ∧ TaxBitRecType.decode "Transfer In" = some TaxBitRecType.TransferIn
    ∧ TaxBitRecType.decode "Gift Received" = some TaxBitRecType.GiftReceived
    ∧ TaxBitRecType.decode "Transfer Out" = some TaxBitRecType.TransferOut
    ∧ TaxBitRecType.decode "Gift Send" = some TaxBitRecType.GiftSent := by
  refine ⟨?_, ?_, ?_, by decide, by decide, by decide, by decide, by decide,
    by decide⟩
  · cases t <;> decide
  · intro h
    unfold TaxBitRecType.decode at h
    split_ifs at h with h1 h2 h3 h4 h5 h6 h7 h8 h9 h10 <;>
      first
        | (injection h with h'; subst h'; assumption)
        | exact Option.noConfusion h
  · intro h
    unfold TaxBitRecType.decode
    split_ifs with h1 h2 h3 h4 h5 h6 h7 h8 h9 h10
    · exact absurd h1 (h TaxBitRecType.Income)
    · exact absurd h2 (h TaxBitRecType.TransferIn)
    · exact absurd h3 (h TaxBitRecType.GiftReceived)
    · exact absurd h4 (h TaxBitRecType.Buy)
    · exact absurd h5 (h TaxBitRecType.Trade)
    · exact absurd h6 (h TaxBitRecType.Sale)
    · exact absurd h7 (h TaxBitRecType.Expense)
    · exact absurd h8 (h TaxBitRecType.TransferOut)
    · exact absurd h9 (h TaxBitRecType.GiftSent)
    · exact absurd h10 (h TaxBitRecType.Unknown)
    · rfl

/-- Claim C8 witness: a string matching no label decodes to an error. -/
theorem claim_C8_decode_labels_witness :
    TaxBitRecType.decode "nope" = none :=
  (claim_C8_decode_labels "nope" TaxBitRecType.Unknown).2.2.1 (by decide)

/-- Claim C9: the order used at the kind position is the fixed
declaration-sequence total order Income < TransferIn < GiftReceived < Buy <
Trade < Sale < Expense < TransferOut < GiftSent < Unknown: the chain of
consecutive strict inequalities holds, the comparator is reflexive, strict
(`Equal` only on identical kinds), transitive and total, and it is exactly
what the record comparison invokes at the kind position (`pcType`). -/
theorem claim_C9_kind_declaration_order (t t₁ t₂ t₃ : TaxBitRecType) :
    TaxBitRecType.cmpType TaxBitRecType.Income TaxBitRecType.TransferIn
        = Ordering.lt
    ∧ TaxBitRecType.cmpType TaxBitRecType.TransferIn TaxBitRecType.GiftReceived
        = Ordering.lt
    ∧ TaxBitRecType.cmpType TaxBitRecType.GiftReceived TaxBitRecType.Buy
        = Ordering.lt
    ∧ TaxBitRecType.cmpType TaxBitRecType.Buy TaxBitRecType.Trade = Ordering.lt
    ∧ TaxBitRecType.cmpType TaxBitRecType.Trade TaxBitRecType.Sale = Ordering.lt
    ∧ TaxBitRecType.cmpType TaxBitRecType.Sale TaxBitRecType.Expense
        = Ordering.lt
    ∧ TaxBitRecType.cmpType TaxBitRecType.Expense TaxBitRecType.TransferOut
        = Ordering.lt
    ∧ TaxBitRecType.cmpType TaxBitRecType.TransferOut TaxBitRecType.GiftSent
        = Ordering.lt
    ∧ TaxBitRecType.cmpType TaxBitRecType.GiftSent TaxBitRecType.Unknown
        = Ordering.lt
    ∧ TaxBitRecType.cmpType t t = Ordering.eq
    ∧ (TaxBitRecType.cmpType t₁ t₂ = Ordering.eq → t₁ = t₂)
    ∧ (TaxBitRecType.cmpType t₁ t₂ = Ordering.lt →
        TaxBitRecType.cmpType t₂ t₃ = Ordering.lt →
        TaxBitRecType.cmpType t₁ t₃ = Ordering.lt)
    ∧ (TaxBitRecType.cmpType t₁ t₂ = Ordering.lt ∨ t₁ = t₂
        ∨ TaxBitRecType.cmpType t₂ t₁ = Ordering.lt)
    ∧ pcType t₁ t₂ = some (TaxBitRecType.cmpType t₁ t₂) := by
  revert t t₁ t₂ t₃
  decide

/-- Claim C9 witness: transitivity discharged on the first two links of the
declaration chain. -/
theorem claim_C9_kind_declaration_order_witness :
    TaxBitRecType.cmpType TaxBitRecType.Income TaxBitRecType.GiftReceived
      = Ordering.lt :=
  (claim_C9_kind_declaration_order TaxBitRecType.Unknown TaxBitRecType.Income
    TaxBitRecType.TransferIn
    TaxBitRecType.GiftReceived).2.2.2.2.2.2.2.2.2.2.2.1 (by decide) (by decide)

/-- Claim C10: `partial_cmp` returns `Some` ordering for every pair of
records, so the `None` (panic) branch of `Ord::cmp` is unreachable and `cmp`
is total: it always equals `partial_cmp` and never yields the panic value. -/
theorem claim_C10_cmp_total (a b : TaxBitRec) :
    (∃ o : Ordering, TaxBitRec.pcmp a b = some o)
    ∧ TaxBitRec.cmpRec a b = TaxBitRec.pcmp a b
    ∧ TaxBitRec.cmpRec a b ≠ none :=
  ⟨⟨recCompare a b, pcmp_eq_some a b⟩,
   by rw [cmpRec_eq_some, pcmp_eq_some],
   by rw [cmpRec_eq_some]; exact Option.some_ne_none _⟩

/-- Claim C10 witness: the totality of `cmp` evaluated at the zero record. -/
theorem claim_C10_cmp_total_witness :
    TaxBitRec.cmpRec TaxBitRec.new TaxBitRec.new ≠ none :=
  (claim_C10_cmp_total TaxBitRec.new TaxBitRec.new).2.2
